import Mathlib

/-!
Shallow embedding of the private-auctions service (sealed-bid commit-reveal
auction mirror): commitment hashing, transaction building, RPC endpoint
failover and retry, rate limiting, webhook event reconciliation, and the
auction mutation endpoints.  Each definition is translated from the
corresponding source function; external capabilities (SHA-256/HMAC digests,
the Upstash sliding-window store, the Noir verifier, the database) are
passed in as explicit parameters or modelled as explicit state.
-/

namespace PrivateAuctions

/-! ### Byte-level helpers (Node `Buffer` semantics) -/

/-- Little-endian 32-bit encoding, as written by `Buffer.writeUInt32LE`. -/
def u32le (n : Nat) : List Nat :=
  [n % 256, n / 256 % 256, n / 2 ^ 16 % 256, n / 2 ^ 24 % 256]

/-- Little-endian 64-bit encoding, as written by `Buffer.writeBigUInt64LE`. -/
def u64le (n : Nat) : List Nat :=
  (List.range 8).map (fun i => n / 2 ^ (8 * i) % 256)

/-- `Buffer.alloc n`: `n` zero bytes. -/
def bufferAlloc (n : Nat) : List Nat := List.replicate n 0

/-- `src.copy(dst, offset)`: overwrite `dst` starting at `offset` with the
bytes of `src`, silently truncating at the end of `dst` (Node semantics). -/
def bufferCopy (src dst : List Nat) (offset : Nat) : List Nat :=
  dst.take offset ++ src.take (dst.length - offset) ++ dst.drop (offset + src.length)

/-- UTF-8 encoding of a string, as produced by `Buffer.from(s, 'utf-8')`. -/
def utf8Bytes (s : String) : List Nat :=
  s.toUTF8.toList.map (fun b => b.toNat)

/-- Lower-case hex digit for a value `< 16`. -/
def hexDigit (n : Nat) : Char :=
  if n < 10 then Char.ofNat (48 + n) else Char.ofNat (87 + n)

/-- Lower-case hex encoding of a byte list, as produced by `.digest('hex')`. -/
def bytesToHex (bs : List Nat) : String :=
  String.mk ((bs.map (fun b => [hexDigit (b / 16 % 16), hexDigit (b % 16)])).flatten)

/-! ### `lib/noir/prover.ts`: commitment hashing

`crypto.createHash('sha256')` is an external capability; its streaming
interface is modelled by a context that accumulates the update bytes, with
the digest itself an explicit function parameter `sha256`. -/

/-- Streaming hash context: `crypto.createHash` starts with no input. -/
structure HashCtx where
  buf : List Nat

/-- `crypto.createHash('sha256')`. -/
def createHash : HashCtx := ⟨[]⟩

/-- `hash.update(bytes)`: streams more input into the context. -/
def HashCtx.update (ctx : HashCtx) (bytes : List Nat) : HashCtx :=
  ⟨ctx.buf ++ bytes⟩

/-- `hash.digest('hex')` with the digest function passed explicitly. -/
def HashCtx.digestHex (ctx : HashCtx) (sha256 : List Nat → List Nat) : String :=
  bytesToHex (sha256 ctx.buf)

/-- `generateCommitmentHash` from `lib/noir/prover.ts`: writes the bid amount
into an 8-byte buffer with `writeBigUInt64LE`, then streams amount buffer,
salt and the UTF-8 bidder pubkey into a fresh SHA-256 context. -/
def generateCommitmentHash (sha256 : List Nat → List Nat)
    (bidAmount : Nat) (salt : List Nat) (bidderPubkey : String) : String :=
  let hash := createHash
  let amountBuffer := u64le bidAmount
  let hash := hash.update amountBuffer
  let hash := hash.update salt
  let hash := hash.update (utf8Bytes bidderPubkey)
  hash.digestHex sha256

/-! ### `lib/solana/transactions.ts`: submit-bid instruction data -/

/-- Parameters of `buildSubmitBidTransaction` (account addresses as opaque
byte lists). -/
structure SubmitBidParams where
  auctionId : List Nat
  bidder : List Nat
  commitmentHash : List Nat
  proof : List Nat
  proofHash : List Nat
  paymentMint : List Nat
  collateralAmount : Nat

/-- `INSTRUCTIONS.SUBMIT_BID`. -/
def SUBMIT_BID : List Nat := [1]

/-- The instruction-data construction inside `buildSubmitBidTransaction`:
`Buffer.alloc(256)`, discriminator, commitment hash, proof hash,
`writeUInt32LE(proof.length)`, proof bytes, then `subarray(0, offset)`. -/
def submitBidInstructionData (p : SubmitBidParams) : List Nat :=
  let data := bufferAlloc 256
  let data := bufferCopy SUBMIT_BID data 0
  let offset := 1
  let data := bufferCopy p.commitmentHash data offset
  let offset := offset + 32
  let data := bufferCopy p.proofHash data offset
  let offset := offset + 32
  let data := bufferCopy (u32le p.proof.length) data offset
  let offset := offset + 4
  let data := bufferCopy p.proof data offset
  let offset := offset + p.proof.length
  data.take offset

/-! ### `lib/solana/connection.ts`: `ConnectionPool`

The pool holds a primary and a fallback endpoint; network probes are
modelled as boolean outcomes supplied per step. -/

/-- The two RPC endpoints held by `ConnectionPool`. -/
inductive Endpoint
  | primary
  | fallback
deriving DecidableEq, Repr

/-- Mutable fields of `ConnectionPool` relevant to failover. -/
structure PoolState where
  current : Endpoint
  consecutiveFailures : Nat
deriving DecidableEq, Repr

/-- The constructor sets `currentConnection = primaryConnection`. -/
def initialPool : PoolState := ⟨Endpoint.primary, 0⟩

/-- `private readonly maxFailures = 3`. -/
def maxFailures : Nat := 3

/-- `checkHealth()`: probes the current connection (outcome passed in);
on success resets the consecutive-failure counter, on failure increments
it.  Returns the updated state and the `healthy` flag. -/
def checkHealth (s : PoolState) (currentHealthy : Bool) : PoolState × Bool :=
  if currentHealthy then ({ s with consecutiveFailures := 0 }, true)
  else ({ s with consecutiveFailures := s.consecutiveFailures + 1 }, false)

/-- `switchToFallback()`: moves to the fallback and resets the counter. -/
def switchToFallback (_s : PoolState) : PoolState :=
  ⟨Endpoint.fallback, 0⟩

/-- `tryPrimary()`: probes the primary (outcome passed in); on success moves
back to the primary, otherwise stays put. -/
def tryPrimary (s : PoolState) (primaryHealthy : Bool) : PoolState :=
  if primaryHealthy then { s with current := Endpoint.primary } else s

/-- One iteration of the `startHealthCheck` interval callback: run
`checkHealth`; if unhealthy while on primary, switch to fallback; if healthy
while on fallback, try the primary again. -/
def healthTick (s : PoolState) (currentHealthy primaryHealthy : Bool) : PoolState :=
  let probe := checkHealth s currentHealthy
  let s1 := probe.1
  if !probe.2 && decide (s1.current = Endpoint.primary) then switchToFallback s1
  else if probe.2 && decide (s1.current = Endpoint.fallback) then tryPrimary s1 primaryHealthy
  else s1

/-! #### `executeWithRetry`

The loop `for (attempt = 0; attempt < maxRetries; attempt++)` is embedded
as structural recursion over the list `List.range maxRetries` of attempt
indices; the outcome of running the operation at attempt `i` against
endpoint `ep` is supplied by `op i ep`.  The result records the value or
the propagated `lastError` (`none` models the initial `null`), the backoff
delays slept between attempts, and the endpoint the pool is left on. -/

/-- Result of `executeWithRetry`: outcome, the sequence of backoff delays
(in ms) actually awaited, and the pool's final current endpoint. -/
structure RetryResult (E A : Type) where
  result : Except (Option E) A
  delays : List Nat
  finalEndpoint : Endpoint

/-- `Math.pow(2, attempt) * 1000`: the backoff delay slept after a failed
attempt (no upper cap appears in the source). -/
def backoffDelay (attempt : Nat) : Nat := 2 ^ attempt * 1000

/-- The body of the retry loop over the remaining attempt indices.  On a
failure: sleep `backoffDelay attempt` unless this was the last attempt
(`attempt < maxRetries - 1` holds exactly when indices remain), and if
`attempt === 1` while the current endpoint is the primary, switch to the
fallback before the next attempt. -/
def retryGo {E A : Type} (op : Nat → Endpoint → Except E A) :
    List Nat → Endpoint → Option E → RetryResult E A
  | [], cur, lastError => ⟨Except.error lastError, [], cur⟩
  | attempt :: rest, cur, _lastError =>
    match op attempt cur with
    | Except.ok a => ⟨Except.ok a, [], cur⟩
    | Except.error e =>
      let ds := if rest.isEmpty then [] else [backoffDelay attempt]
      let cur' :=
        if attempt == 1 && cur == Endpoint.primary then Endpoint.fallback else cur
      let r := retryGo op rest cur' (some e)
      ⟨r.result, ds ++ r.delays, r.finalEndpoint⟩

/-- `executeWithRetry(operation, maxRetries = 3)` started with the pool's
current endpoint `start`. -/
def executeWithRetry {E A : Type} (op : Nat → Endpoint → Except E A)
    (maxRetries : Nat) (start : Endpoint) : RetryResult E A :=
  retryGo op (List.range maxRetries) start none

/-- The endpoint attempt `j` runs against when every attempt fails, for a
loop entered at attempt `s` with current endpoint `cur`: the only switch
happens after attempt 1 fails on the primary, so attempts from index 2 on
run against the fallback when the loop started on the primary. -/
def trajEndpoint (s : Nat) (cur : Endpoint) (j : Nat) : Endpoint :=
  if cur = Endpoint.primary ∧ s ≤ 1 ∧ 2 ≤ j then Endpoint.fallback else cur

/-! ### Mirrored database state -/

/-- Auction lifecycle statuses stored in the `auctions.status` column. -/
inductive Status
  | pending
  | active
  | revealing
  | settled
  | cancelled
deriving DecidableEq, Repr

/-- A row of the `users` table (the columns the embedded routes read). -/
structure UserRow where
  id : String
  privy_id : String
  wallet_addresses : List String
deriving DecidableEq, Repr

/-- A row of the `auctions` table (the columns the embedded routes read). -/
structure AuctionRow where
  on_chain_id : Option String
  seller_id : String
  status : Status
  bid_count : Nat
  created_at : Nat
  ends_at : Nat
  product_type : String
  title : String
deriving DecidableEq, Repr

/-- A row of the `bids` table. -/
structure BidRow where
  auction_id : String
  bidder_id : String
  commitment_hash : String
  on_chain_id : Option String
  revealed : Bool
  amount : Option Nat
deriving DecidableEq, Repr

/-- A row of the `fulfillments` table. -/
structure FulfillmentRow where
  auction_id : String
  buyer_id : String
  seller_id : String
  status : String
deriving DecidableEq, Repr

/-- The mirrored state touched by the embedded routes and handlers. -/
structure Mirror where
  auctions : List AuctionRow
  bids : List BidRow
  fulfillments : List FulfillmentRow
  users : List UserRow
deriving DecidableEq, Repr

/-- Apply `f` to the element at index `i` (no-op when out of range). -/
def listUpdateAt {α : Type} (l : List α) (i : Nat) (f : α → α) : List α :=
  l.enum.map (fun x => if x.1 == i then f x.2 else x.2)

/-- Index of the row matching `p` with the greatest `created_at` (first such
row on ties), mirroring the descending `created_at` order with `limit(1)`. -/
def argmaxCreatedAt (p : AuctionRow → Bool) (l : List AuctionRow) : Option Nat :=
  ((l.enum.filter (fun x => p x.2)).foldl
    (fun acc x =>
      match acc with
      | none => some x
      | some y => if y.2.created_at < x.2.created_at then some x else some y)
    none).map (fun x => x.1)

/-! ### `api/webhooks/helius/route.ts`: event reconciliation -/

/-- `handleAuctionCreated`: sets `on_chain_id` and `status='active'` on the
seller's most recently created pending auction row. -/
def handleAuctionCreated (auctionPubkey seller : String) (m : Mirror) : Mirror :=
  match argmaxCreatedAt
      (fun a => a.seller_id == seller && a.status == Status.pending) m.auctions with
  | none => m
  | some i =>
    { m with auctions :=
        (listUpdateAt m.auctions i
          (fun a => { a with on_chain_id := some auctionPubkey, status := Status.active })) }

/-- Modelled from the spec: the `increment_bid_count` stored procedure invoked
via `supabase.rpc` is not among the source files; per the call-site comment
"Increment auction bid count" and the spec's "bidCount is authoritative only
from confirmed ledger events", it adds one to the `bid_count` of the auction
whose `on_chain_id` equals the given id — it receives no other key. -/
def increment_bid_count (auction_on_chain_id : String)
    (auctions : List AuctionRow) : List AuctionRow :=
  auctions.map (fun a =>
    if a.on_chain_id == some auction_on_chain_id then
      { a with bid_count := a.bid_count + 1 }
    else a)

/-- `handleBidSubmitted`: records the on-chain bid id on the bid row matched
by `(commitment_hash, auction_id)`, then increments the auction's bid count. -/
def handleBidSubmitted (auctionId bidId commitmentHash : String) (m : Mirror) : Mirror :=
  let bids := m.bids.map (fun b =>
    if b.commitment_hash == commitmentHash && b.auction_id == auctionId then
      { b with on_chain_id := some bidId }
    else b)
  let auctions := increment_bid_count auctionId m.auctions
  { m with bids := bids, auctions := auctions }

/-- `handleBidRevealed`: sets `revealed := true` and stores the event's
`amount` on the bid row matched by `on_chain_id`; no recomputation of the
commitment hash appears in the source. -/
def handleBidRevealed (bidId : String) (amount : Nat) (m : Mirror) : Mirror :=
  { m with bids := m.bids.map (fun b =>
      if b.on_chain_id == some bidId then
        { b with revealed := true, amount := some amount }
      else b) }

/-- `handleAuctionSettled`: sets the auction's status to `settled`
(unconditionally on the current status), then — when both the auction row
and a user owning the winner wallet exist — inserts a fulfillment row
(a plain insert; no conflict target is specified). -/
def handleAuctionSettled (auctionId winner : String) (_settlementAmount : Nat)
    (m : Mirror) : Mirror :=
  let auctions := m.auctions.map (fun a =>
    if a.on_chain_id == some auctionId then { a with status := Status.settled } else a)
  let m1 := { m with auctions := auctions }
  match m1.auctions.find? (fun a => a.on_chain_id == some auctionId),
        m1.users.find? (fun u => u.wallet_addresses.contains winner) with
  | some auction, some winnerUser =>
    { m1 with fulfillments :=
        m1.fulfillments ++ [⟨auctionId, winnerUser.id, auction.seller_id, "pending"⟩] }
  | _, _ => m1

/-- The webhook event batch entries, dispatched on `event.type`. -/
inductive HeliusEvent
  | auctionCreated (auctionPubkey seller : String)
  | bidSubmitted (auctionId bidId commitmentHash : String)
  | bidRevealed (bidId : String) (amount : Nat)
  | auctionSettled (auctionId winner : String) (settlementAmount : Nat)
  | deliveryConfirmed
  | disputeRaised
  | unknown (type : String)
deriving DecidableEq, Repr

/-- The `switch (event.type)` dispatch; `DELIVERY_CONFIRMED`,
`DISPUTE_RAISED` and unknown types leave the mirror unchanged. -/
def processEvent (e : HeliusEvent) (m : Mirror) : Mirror :=
  match e with
  | HeliusEvent.auctionCreated pk seller => handleAuctionCreated pk seller m
  | HeliusEvent.bidSubmitted aid bid ch => handleBidSubmitted aid bid ch m
  | HeliusEvent.bidRevealed bid amt => handleBidRevealed bid amt m
  | HeliusEvent.auctionSettled aid w amt => handleAuctionSettled aid w amt m
  | HeliusEvent.deliveryConfirmed => m
  | HeliusEvent.disputeRaised => m
  | HeliusEvent.unknown _ => m

/-- `for (const event of events) { ... }`. -/
def processEvents (events : List HeliusEvent) (m : Mirror) : Mirror :=
  events.foldl (fun st e => processEvent e st) m

/-- `verifySignature`: recomputes the HMAC-SHA256 hex digest of the raw body
(the keyed digest is the explicit parameter `hmacHex`) and compares with
`crypto.timingSafeEqual`, which throws when the two buffers differ in
length; the thrown case is the `Except.error`. -/
def verifySignature (hmacHex : String → String) (payload signature : String) :
    Except Unit Bool :=
  let expectedSignature := hmacHex payload
  if signature.utf8ByteSize = expectedSignature.utf8ByteSize then
    Except.ok (signature == expectedSignature)
  else
    Except.error ()

/-- `POST /api/webhooks/helius`: missing header ⇒ 401; `verifySignature`
throwing is caught by the route's outer `catch` ⇒ 500; a non-matching
signature ⇒ 401; only a matching signature reaches the event loop.
Returns the HTTP status and the resulting mirror state (the parsed batch is
the `events` parameter). -/
def webhookPost (hmacHex : String → String) (body : String)
    (signatureHeader : Option String) (events : List HeliusEvent)
    (m : Mirror) : Nat × Mirror :=
  match signatureHeader with
  | none => (401, m)
  | some signature =>
    match verifySignature hmacHex body signature with
    | Except.error _ => (500, m)
    | Except.ok false => (401, m)
    | Except.ok true => (200, processEvents events m)

/-! ### `api/auctions/[id]/route.ts`: PATCH and DELETE -/

/-- The update payload a PATCH request may carry (passed straight from
`request.json()` into `.update(updates)`). -/
structure AuctionUpdates where
  status : Option Status
  title : Option String
deriving DecidableEq, Repr

/-- `.update(updates)`: overwrite exactly the supplied columns. -/
def applyUpdates (u : AuctionUpdates) (a : AuctionRow) : AuctionRow :=
  { a with status := u.status.getD a.status, title := u.title.getD a.title }

/-- `PATCH /api/auctions/[id]`: session check, ownership check, then the
guard `status !== 'pending' && status !== 'active'` ⇒ 400, otherwise the
request's `updates` object is applied verbatim to the auction row. -/
def patchAuction (auctionId : String) (updates : AuctionUpdates)
    (sessionUser : Option String) (m : Mirror) : Nat × Mirror :=
  match sessionUser with
  | none => (401, m)
  | some uid =>
    match m.auctions.find? (fun a => a.on_chain_id == some auctionId) with
    | none => (404, m)
    | some auction =>
      match m.users.find? (fun u => u.id == auction.seller_id) with
      | none => (404, m)
      | some owner =>
        if owner.privy_id ≠ uid then (403, m)
        else if auction.status ≠ Status.pending ∧ auction.status ≠ Status.active then
          (400, m)
        else
          (200, { m with auctions := m.auctions.map (fun a =>
            if a.on_chain_id == some auctionId then applyUpdates updates a else a) })

/-- `DELETE /api/auctions/[id]`: session check, ownership check, then the
guard `bid_count > 0` ⇒ 400, otherwise `status := 'cancelled'` — no check of
the current status appears in the source. -/
def deleteAuction (auctionId : String) (sessionUser : Option String)
    (m : Mirror) : Nat × Mirror :=
  match sessionUser with
  | none => (401, m)
  | some uid =>
    match m.auctions.find? (fun a => a.on_chain_id == some auctionId) with
    | none => (404, m)
    | some auction =>
      match m.users.find? (fun u => u.id == auction.seller_id) with
      | none => (404, m)
      | some owner =>
        if owner.privy_id ≠ uid then (403, m)
        else if 0 < auction.bid_count then (400, m)
        else
          (200, { m with auctions := m.auctions.map (fun a =>
            if a.on_chain_id == some auctionId then { a with status := Status.cancelled }
            else a) })

/-! ### `lib/rate-limit.ts`: sliding-window rate limiters -/

/-- The four limiters constructed in `rateLimiters`. -/
inductive LimiterType
  | bidSubmission
  | auctionCreation
  | proofVerification
  | apiRequest
deriving DecidableEq, Repr

/-- The request limit configured for each limiter. -/
def limiterLimit : LimiterType → Nat
  | LimiterType.bidSubmission => 10
  | LimiterType.auctionCreation => 5
  | LimiterType.proofVerification => 100
  | LimiterType.apiRequest => 100

/-- The window (in milliseconds) configured for each limiter. -/
def limiterWindowMs : LimiterType → Nat
  | LimiterType.bidSubmission => 60000
  | LimiterType.auctionCreation => 3600000
  | LimiterType.proofVerification => 60000
  | LimiterType.apiRequest => 60000

/-- Modelled from the spec: the Upstash sliding-window counter store is an
external shared service; per "sliding-window counters scoped per (actor,
operation-kind)", a request at `now` is allowed when fewer than `limit`
earlier requests for the same key fall inside the trailing window. -/
def slidingWindowAllowed (limit windowMs : Nat) (past : List Nat) (now : Nat) : Bool :=
  decide ((past.filter (fun t => now < t + windowMs)).length < limit)

/-- `checkRateLimit(identifier, type)`: runs the limiter selected by `type`
(`past` are the key's earlier request timestamps); `success = false` makes
the function throw, which the caller maps to a 429. -/
def checkRateLimit (past : List Nat) (now : Nat) (type : LimiterType) : Bool :=
  slidingWindowAllowed (limiterLimit type) (limiterWindowMs type) past now

/-- The declared default of `checkRateLimit`'s `type` parameter, which
applies whenever the caller omits the argument. -/
def checkRateLimitDefaultType : LimiterType := LimiterType.apiRequest

/-! ### `api/auctions/[id]/bids/route.ts`: bid submission -/

/-- The request body after `submitBidSchema` parsing. -/
structure BidRequest where
  commitmentHash : String
  proof : List Nat
  proofHash : String
  collateralAmount : Nat
deriving DecidableEq, Repr

/-- `submitBidSchema`: 64-hex-char commitment hash and proof hash, positive
collateral amount. -/
def schemaOk (r : BidRequest) : Bool :=
  r.commitmentHash.length == 64 && r.proofHash.length == 64
    && decide (0 < r.collateralAmount)

/-- `verifyProof` from `lib/noir/verifier.ts`: forwards the external
verifier's boolean and maps a thrown verifier exception to `false`
(the `catch` branch). -/
def verifyProof (verifierOutcome : Except Unit Bool) : Bool :=
  match verifierOutcome with
  | Except.ok isValid => isValid
  | Except.error _ => false

/-- What `POST /api/auctions/[id]/bids` returns: the HTTP status, whether a
pending bid row was inserted, and whether an unsigned transaction was
returned in the response body. -/
structure BidSubmitResponse where
  status : Nat
  bidPersisted : Bool
  transactionReturned : Bool
deriving DecidableEq, Repr

/-- `POST /api/auctions/[id]/bids`: schema validation, session check, rate
limit (`checkRateLimit(rateLimitKey)` — the `type` argument is omitted, so
the declared default applies), user lookup, auction active/ended checks,
duplicate-bid check, proof verification, transaction build, then the insert
of the pending bid row (`insertOk = false` models a database insert error,
which yields a 500 with no row). -/
def submitBidPost (req : BidRequest) (session : Option String)
    (pastRequests : List Nat) (now : Nat)
    (user? : Option UserRow) (auction? : Option AuctionRow)
    (existingBid : Bool) (verifierOutcome : Except Unit Bool)
    (insertOk : Bool) : BidSubmitResponse :=
  if schemaOk req = false then ⟨400, false, false⟩
  else
    match session with
    | none => ⟨401, false, false⟩
    | some _uid =>
      if checkRateLimit pastRequests now checkRateLimitDefaultType = false then
        ⟨429, false, false⟩
      else
        match user? with
        | none => ⟨404, false, false⟩
        | some _user =>
          match auction? with
          | none => ⟨404, false, false⟩
          | some auction =>
            if auction.status ≠ Status.active then ⟨400, false, false⟩
            else if auction.ends_at < now then ⟨400, false, false⟩
            else if existingBid then ⟨400, false, false⟩
            else if verifyProof verifierOutcome = false then ⟨400, false, false⟩
            else if insertOk = false then ⟨500, false, false⟩
            else ⟨200, true, true⟩

/-! ## Theorems -/

/-- C9: for every bid amount, salt, and bidder public key string, the
commitment hash computed by the prover equals the SHA-256 digest of the
8-byte little-endian amount, followed by the salt bytes, followed by the
UTF-8 encoding of the bidder public key, in that order. -/
theorem generateCommitmentHash_is_sha256_of_concatenation
    (sha256 : List Nat → List Nat) (bidAmount : Nat) (salt : List Nat)
    (bidderPubkey : String) :
    generateCommitmentHash sha256 bidAmount salt bidderPubkey
      = bytesToHex (sha256 (u64le bidAmount ++ salt ++ utf8Bytes bidderPubkey)) := by
  simp [generateCommitmentHash, createHash, HashCtx.update, HashCtx.digestHex,
    List.append_assoc]

/-- C10: the serialized submit-bid instruction data is byte-for-byte
independent of the `collateralAmount` parameter — two calls whose inputs
differ only in the declared collateral produce identical instruction data. -/
theorem submitBidInstructionData_ignores_collateral
    (p : SubmitBidParams) (c : Nat) :
    submitBidInstructionData { p with collateralAmount := c }
      = submitBidInstructionData p := rfl

/-- C1: the reveal handler performs no commitment-hash check — for every
stored `commitment_hash` value `h` (in particular any value different from
the SHA-256 recomputation), a `BID_REVEALED` event sets `revealed := true`
and writes the event's amount on the matching bid row. -/
theorem bidRevealed_writes_amount_without_hash_check (h : String) :
    ((handleBidRevealed "B1" 5
        ⟨[], [⟨"A1", "U1", h, some "B1", false, none⟩], [], []⟩).bids.map
      (fun b => (b.revealed, b.amount))) = [(true, some 5)] := by
  simp [handleBidRevealed]

/-- Mirror used for the C2 replay experiment: one active auction with
`bid_count = 0` and one matching pending bid row. -/
def c2Mirror : Mirror :=
  ⟨[⟨some "A1", "S", Status.active, 0, 0, 100, "digital", "t"⟩],
   [⟨"A1", "U1", "CH", none, false, none⟩], [], []⟩

/-- The C2 event batch: a single `BID_SUBMITTED` event. -/
def c2Batch : List HeliusEvent := [HeliusEvent.bidSubmitted "A1" "B1" "CH"]

/-- C2: replaying the same event batch is not idempotent — processing one
`BID_SUBMITTED` batch once leaves `bid_count = 1`, processing the same batch
a second time increments it again to `2`, so the final mirrored states
differ. -/
theorem bidSubmitted_replay_double_increments :
    (processEvents c2Batch c2Mirror).auctions.map (fun a => a.bid_count) = [1]
    ∧ (processEvents c2Batch (processEvents c2Batch c2Mirror)).auctions.map
        (fun a => a.bid_count) = [2]
    ∧ processEvents c2Batch (processEvents c2Batch c2Mirror)
        ≠ processEvents c2Batch c2Mirror := by decide

/-- Mirror used for the C3 transition experiment: a settled (terminal)
auction with zero bids, owned by the session user. -/
def c3Mirror : Mirror :=
  ⟨[⟨some "A1", "U", Status.settled, 0, 0, 100, "digital", "t"⟩],
   [], [], [⟨"U", "privy-u", []⟩]⟩

/-- C3: the DELETE cancel endpoint moves a terminal `settled` auction to
`cancelled` and reports success — a transition outside the
pending→active→revealing→{settled|cancelled} table is recorded instead of
failing with an invalid-state-transition error. -/
theorem deleteAuction_cancels_settled_auction :
    c3Mirror.auctions.map (fun a => a.status) = [Status.settled]
    ∧ (deleteAuction "A1" (some "privy-u") c3Mirror).1 = 200
    ∧ (deleteAuction "A1" (some "privy-u") c3Mirror).2.auctions.map
        (fun a => a.status) = [Status.cancelled] := by decide

/-- A schema-valid bid submission request (64-hex-char hashes, positive
collateral). -/
def c4Request : BidRequest :=
  ⟨"aaaaaaaaaaaaaaaaaaaaaaaaaaaaaaaaaaaaaaaaaaaaaaaaaaaaaaaaaaaaaaaa", [],
   "bbbbbbbbbbbbbbbbbbbbbbbbbbbbbbbbbbbbbbbbbbbbbbbbbbbbbbbbbbbbbbbb", 1⟩

/-- Ten prior submissions by the same (user, auction) key, all within the
last 60 seconds of `now = 10000`. -/
def c4Past : List Nat := (List.range 10).map (fun i => i * 1000)

/-- C4: the bid-submission endpoint admits the 11th submission by the same
(user, auction) within 60 seconds: the route calls `checkRateLimit` without
a `type`, so the 100/60s `apiRequest` limiter applies, although the
configured 10/60s `bidSubmission` limiter would reject the same history. -/
theorem eleventh_bid_submission_admitted :
    submitBidPost c4Request (some "privy-u") c4Past 10000
        (some ⟨"U", "privy-u", ["W"]⟩)
        (some ⟨some "A1", "U", Status.active, 0, 0, 1000000, "digital", "t"⟩)
        false (Except.ok true) true = ⟨200, true, true⟩
    ∧ c4Past.length = 10
    ∧ (∀ t ∈ c4Past, 10000 < t + limiterWindowMs LimiterType.bidSubmission)
    ∧ checkRateLimit c4Past 10000 LimiterType.bidSubmission = false
    ∧ checkRateLimitDefaultType = LimiterType.apiRequest
    ∧ limiterLimit LimiterType.bidSubmission = 10 := by decide

/-- C5: the pool abandons the primary after a single failed health probe —
one unhealthy tick from the initial state already switches `current` to the
fallback, with the consecutive-failure counter at 1, below the declared
(and never consulted) `maxFailures = 3`; a healthy probe of the primary
while on the fallback does switch back. -/
theorem pool_fails_over_after_single_health_failure :
    (healthTick initialPool false false).current = Endpoint.fallback
    ∧ (checkHealth initialPool false).1.consecutiveFailures = 1
    ∧ 1 < maxFailures
    ∧ (healthTick ⟨Endpoint.fallback, 0⟩ true true).current = Endpoint.primary := by
  decide

/-- C6 counterexample: with 7 retries against an always-failing operation,
the delay slept after attempt index 5 is `2 ^ 5 * 1000 = 32000` ms, whereas
`min (1000 * 2 ^ 5) 30000 = 30000` — the claimed 30000 ms cap does not
exist in the code. -/
theorem executeWithRetry_backoff_exceeds_cap :
    (executeWithRetry (fun i (_ : Endpoint) => (Except.error i : Except Nat Unit))
        7 Endpoint.primary).delays = [1000, 2000, 4000, 8000, 16000, 32000]
    ∧ min (1000 * 2 ^ 5) 30000 = 30000
    ∧ (32000 : Nat) ≠ 30000 := by
  refine ⟨by decide, by decide, by decide⟩

/-- One failing step of the retry loop: the recorded backoff (skipped on the
final attempt) and the endpoint switch after attempt index 1 on the primary. -/
theorem retryGo_cons_error {E A : Type} (op : Nat → Endpoint → Except E A)
    (a : Nat) (l : List Nat) (cur : Endpoint) (le : Option E) (e : E)
    (hop : op a cur = Except.error e) :
    retryGo op (a :: l) cur le =
      ⟨(retryGo op l
          (if a == 1 && cur == Endpoint.primary then Endpoint.fallback else cur)
          (some e)).result,
        (if l.isEmpty then [] else [backoffDelay a])
          ++ (retryGo op l
              (if a == 1 && cur == Endpoint.primary then Endpoint.fallback else cur)
              (some e)).delays,
        (retryGo op l
          (if a == 1 && cur == Endpoint.primary then Endpoint.fallback else cur)
          (some e)).finalEndpoint⟩ := by
  rw [retryGo, hop]

/-- When every attempt fails, the retry loop sleeps `backoffDelay i` after
each attempt index `i` except the last one. -/
theorem retryGo_delays_all_fail {E A : Type} (op : Nat → Endpoint → Except E A)
    (err : Nat → Endpoint → E) (hfail : ∀ i ep, op i ep = Except.error (err i ep)) :
    ∀ (l : List Nat) (cur : Endpoint) (le : Option E),
      (retryGo op l cur le).delays = l.dropLast.map backoffDelay := by
  intro l
  induction l with
  | nil => intro cur le; rfl
  | cons a rest ih =>
    intro cur le
    rw [retryGo_cons_error op a rest cur le (err a cur) (hfail a cur)]
    cases rest with
    | nil => rfl
    | cons b rest' =>
      simp only [List.isEmpty_cons, List.dropLast_cons₂, List.map_cons]
      simp [ih]

/-- `trajEndpoint s cur s = cur`: the first attempt of a loop entered at
index `s` runs against the endpoint the loop was entered with. -/
theorem trajEndpoint_self (s : Nat) (cur : Endpoint) : trajEndpoint s cur s = cur := by
  unfold trajEndpoint
  split
  · omega
  · rfl

/-- Stepping the loop from attempt `s` to attempt `s + 1` (switching to the
fallback when attempt 1 failed on the primary) leaves the endpoint of every
later attempt `j` unchanged. -/
theorem trajEndpoint_step (s : Nat) (cur : Endpoint) (j : Nat) (hj : s + 1 ≤ j) :
    trajEndpoint (s + 1)
        (if s == 1 && cur == Endpoint.primary then Endpoint.fallback else cur) j
      = trajEndpoint s cur j := by
  cases cur with
  | primary =>
    by_cases h1 : s = 1
    · subst h1
      simp only [trajEndpoint]
      norm_num
      split
      · rfl
      · omega
    · simp only [trajEndpoint, beq_iff_eq, h1]
      norm_num
      split
      · split
        · rfl
        · omega
      · split
        · omega
        · rfl
  | fallback =>
    simp [trajEndpoint]

/-- When every attempt fails, the loop's result is the error of the final
attempt, taken against the endpoint `trajEndpoint` assigns to it. -/
theorem retryGo_result_all_fail {E A : Type} (op : Nat → Endpoint → Except E A)
    (err : Nat → Endpoint → E) (hfail : ∀ i ep, op i ep = Except.error (err i ep)) :
    ∀ (n s : Nat) (cur : Endpoint) (le : Option E), 1 ≤ n →
      (retryGo op (List.range' s n) cur le).result
        = Except.error (some (err (s + n - 1) (trajEndpoint s cur (s + n - 1)))) := by
  intro n
  induction n with
  | zero => intro s cur le h; omega
  | succ k ih =>
    intro s cur le _
    rw [List.range'_succ,
      retryGo_cons_error op s (List.range' (s + 1) k) cur le (err s cur) (hfail s cur)]
    cases k with
    | zero =>
      simp [retryGo, trajEndpoint_self]
    | succ k' =>
      rw [ih (s + 1) _ (some (err s cur)) (by omega)]
      have harith : s + 1 + (k' + 1) - 1 = s + (k' + 1 + 1) - 1 := by omega
      rw [harith, trajEndpoint_step s cur (s + (k' + 1 + 1) - 1) (by omega)]

/-- C6 (amended): when every attempt fails, `executeWithRetry` started on
the primary sleeps exactly `1000 * 2 ^ i` ms after each non-final attempt
`i` — exponential backoff with no 30000 ms cap; attempts from index 2 on
run against the fallback (the failover forced when attempt index 1 fails on
the primary), and the error of the final attempt is propagated unmodified. -/
theorem executeWithRetry_uncapped_backoff_spec {E A : Type}
    (op : Nat → Endpoint → Except E A) (err : Nat → Endpoint → E)
    (hfail : ∀ i ep, op i ep = Except.error (err i ep))
    (maxRetries : Nat) (h1 : 1 ≤ maxRetries) :
    (executeWithRetry op maxRetries Endpoint.primary).delays
        = (List.range (maxRetries - 1)).map (fun i => 1000 * 2 ^ i)
    ∧ (executeWithRetry op maxRetries Endpoint.primary).result
        = Except.error (some (err (maxRetries - 1)
            (trajEndpoint 0 Endpoint.primary (maxRetries - 1))))
    ∧ (∀ j, trajEndpoint 0 Endpoint.primary j = Endpoint.fallback ↔ 2 ≤ j) := by
  refine ⟨?_, ?_, ?_⟩
  · rw [executeWithRetry, retryGo_delays_all_fail op err hfail]
    obtain ⟨m, rfl⟩ : ∃ m, maxRetries = m + 1 := ⟨maxRetries - 1, by omega⟩
    rw [List.range_succ, List.dropLast_concat]
    simp [backoffDelay, Nat.mul_comm]
  · rw [executeWithRetry, List.range_eq_range',
      retryGo_result_all_fail op err hfail maxRetries 0 Endpoint.primary none h1]
    norm_num
  · intro j
    unfold trajEndpoint
    constructor
    · intro hfb
      by_contra hj
      have hcond : ¬ (Endpoint.primary = Endpoint.primary ∧ 0 ≤ 1 ∧ 2 ≤ j) :=
        fun hc => hj hc.2.2
      rw [if_neg hcond] at hfb
      exact Endpoint.noConfusion hfb
    · intro hj
      rw [if_pos ⟨rfl, by omega, hj⟩]

/-- C6 amended witness: the spec instantiated at 7 all-failing attempts. -/
theorem executeWithRetry_uncapped_backoff_spec_witness :
    (∀ i ep, (fun (i : Nat) (_ : Endpoint) => (Except.error i : Except Nat Unit)) i ep
        = Except.error ((fun (i : Nat) (_ : Endpoint) => i) i ep))
    ∧ 1 ≤ 7
    ∧ ((executeWithRetry (fun i (_ : Endpoint) => (Except.error i : Except Nat Unit))
          7 Endpoint.primary).delays
        = (List.range (7 - 1)).map (fun i => 1000 * 2 ^ i)
      ∧ (executeWithRetry (fun i (_ : Endpoint) => (Except.error i : Except Nat Unit))
          7 Endpoint.primary).result
        = Except.error (some ((fun (i : Nat) (_ : Endpoint) => i) (7 - 1)
            (trajEndpoint 0 Endpoint.primary (7 - 1))))
      ∧ (∀ j, trajEndpoint 0 Endpoint.primary j = Endpoint.fallback ↔ 2 ≤ j)) :=
  ⟨fun _ _ => rfl, by omega,
    executeWithRetry_uncapped_backoff_spec
      (fun i (_ : Endpoint) => (Except.error i : Except Nat Unit))
      (fun i _ => i) (fun _ _ => rfl) 7 (by omega)⟩

/-- An empty mirror. -/
def emptyMirror : Mirror := ⟨[], [], [], []⟩

/-- A fixed 64-hex-character digest value standing for the HMAC output. -/
def hmacOut : String :=
  "aaaaaaaaaaaaaaaaaaaaaaaaaaaaaaaaaaaaaaaaaaaaaaaaaaaaaaaaaaaaaaaa"

/-- A 64-character signature different from `hmacOut`. -/
def sig64 : String :=
  "bbbbbbbbbbbbbbbbbbbbbbbbbbbbbbbbbbbbbbbbbbbbbbbbbbbbbbbbbbbbbbbb"

/-- C7 counterexample: a signature of the wrong length (here 3 bytes against
the 64-byte hex digest) does not match the HMAC, yet the endpoint answers
500 — the constant-time compare throws and the outer catch maps it to an
internal-server-error, not to the claimed 401. -/
theorem webhook_wrong_length_signature_returns_500 :
    (webhookPost (fun _ => hmacOut) "body" (some "abc") [] emptyMirror).1 = 500
    ∧ ("abc" : String) ≠ hmacOut
    ∧ (500 : Nat) ≠ 401 := by decide

/-- C7 (amended): any request whose signature header does not match the HMAC
of the raw body is rejected before any event handler runs, leaving the
mirror unchanged — with a 401 when the header is missing or has the digest's
length, and a 500 (the compare throws, the outer catch answers) when the
length differs. -/
theorem webhookPost_rejects_nonmatching_signature (hmacHex : String → String)
    (body : String) (sig? : Option String) (events : List HeliusEvent) (m : Mirror)
    (hbad : ∀ s, sig? = some s → s ≠ hmacHex body) :
    (webhookPost hmacHex body sig? events m).2 = m
    ∧ ((webhookPost hmacHex body sig? events m).1 = 401
        ∨ (webhookPost hmacHex body sig? events m).1 = 500)
    ∧ (sig? = none → (webhookPost hmacHex body sig? events m).1 = 401)
    ∧ (∀ s, sig? = some s → s.utf8ByteSize = (hmacHex body).utf8ByteSize →
        (webhookPost hmacHex body sig? events m).1 = 401)
    ∧ (∀ s, sig? = some s → s.utf8ByteSize ≠ (hmacHex body).utf8ByteSize →
        (webhookPost hmacHex body sig? events m).1 = 500) := by
  cases sig? with
  | none => simp [webhookPost]
  | some s =>
    have hne : s ≠ hmacHex body := hbad s rfl
    by_cases hlen : s.utf8ByteSize = (hmacHex body).utf8ByteSize
    · have hbeq : (s == hmacHex body) = false := beq_eq_false_iff_ne.mpr hne
      simp [webhookPost, verifySignature, hlen, hbeq]
    · simp [webhookPost, verifySignature, hlen]

/-- C7 amended witness: a same-length non-matching signature is answered
with a 401 and the mirror is untouched. -/
theorem webhookPost_rejects_nonmatching_signature_witness :
    (∀ s, (some sig64 : Option String) = some s → s ≠ (fun (_ : String) => hmacOut) "body")
    ∧ (webhookPost (fun _ => hmacOut) "body" (some sig64) [] emptyMirror).2 = emptyMirror
    ∧ (webhookPost (fun _ => hmacOut) "body" (some sig64) [] emptyMirror).1 = 401 :=
  have hbad : ∀ s, (some sig64 : Option String) = some s →
      s ≠ (fun (_ : String) => hmacOut) "body" := by
    intro s hs
    cases hs
    decide
  ⟨hbad,
    (webhookPost_rejects_nonmatching_signature (fun _ => hmacOut) "body" (some sig64)
      [] emptyMirror hbad).1,
    (webhookPost_rejects_nonmatching_signature (fun _ => hmacOut) "body" (some sig64)
      [] emptyMirror hbad).2.2.2.1 sig64 rfl (by decide)⟩

/-- C8: bid submission fails closed on proof verification — whenever the
external verifier returns `false` or throws, the response is not a success,
no pending bid row is persisted and no transaction is returned; conversely a
bid row is persisted only when the verifier returned `true`. -/
theorem submitBid_fails_closed (req : BidRequest) (session : Option String)
    (past : List Nat) (now : Nat) (user? : Option UserRow)
    (auction? : Option AuctionRow) (existingBid : Bool)
    (outcome : Except Unit Bool) (insertOk : Bool) :
    ((outcome = Except.ok false ∨ outcome = Except.error ()) →
      (submitBidPost req session past now user? auction? existingBid outcome
          insertOk).bidPersisted = false
      ∧ (submitBidPost req session past now user? auction? existingBid outcome
          insertOk).transactionReturned = false
      ∧ (submitBidPost req session past now user? auction? existingBid outcome
          insertOk).status ≠ 200)
    ∧ ((submitBidPost req session past now user? auction? existingBid outcome
          insertOk).bidPersisted = true → outcome = Except.ok true) := by
  constructor
  · intro hcase
    have hv : verifyProof outcome = false := by
      rcases hcase with h | h <;> simp [verifyProof, h]
    unfold submitBidPost
    repeat' split
    all_goals simp_all
  · intro hp
    unfold submitBidPost at hp
    repeat' split at hp
    all_goals try simp_all
    rcases outcome with e | b
    · simp [verifyProof] at *
    · rcases b with _ | _ <;> simp_all [verifyProof]

/-- C8 witness: with an otherwise fully valid submission whose verifier
throws, no bid row is persisted, no transaction is returned, and the
response is not a 200. -/
theorem submitBid_fails_closed_witness :
    ((Except.error () : Except Unit Bool) = Except.ok false
      ∨ (Except.error () : Except Unit Bool) = Except.error ())
    ∧ (submitBidPost c4Request (some "privy-u") [] 0
        (some ⟨"U", "privy-u", ["W"]⟩)
        (some ⟨some "A1", "U", Status.active, 0, 0, 1000000, "digital", "t"⟩)
        false (Except.error ()) true).bidPersisted = false
    ∧ (submitBidPost c4Request (some "privy-u") [] 0
        (some ⟨"U", "privy-u", ["W"]⟩)
        (some ⟨some "A1", "U", Status.active, 0, 0, 1000000, "digital", "t"⟩)
        false (Except.error ()) true).transactionReturned = false
    ∧ (submitBidPost c4Request (some "privy-u") [] 0
        (some ⟨"U", "privy-u", ["W"]⟩)
        (some ⟨some "A1", "U", Status.active, 0, 0, 1000000, "digital", "t"⟩)
        false (Except.error ()) true).status ≠ 200 :=
  have h := (submitBid_fails_closed c4Request (some "privy-u") [] 0
    (some ⟨"U", "privy-u", ["W"]⟩)
    (some ⟨some "A1", "U", Status.active, 0, 0, 1000000, "digital", "t"⟩)
    false (Except.error ()) true).1 (Or.inr rfl)
  ⟨Or.inr rfl, h.1, h.2.1, h.2.2⟩

end PrivateAuctions
